import Mathlib

/-!
Verification of the pool-scraping core of php-fpm_exporter
(src/phpfpm/phpfpm.go). The Go code is shallowly embedded: pure helpers
become Lean functions, the network steps of a scrape (DialTimeout,
fcgi.Get, ReadAll) are supplied as an oracle record describing the one
interaction of the attempt, and the collaborator routines the file calls
(net/url.Parse, strconv.Atoi, encoding/json field decoding) are modelled
from their documented behaviour on the inputs this program feeds them.
Machine integers (int64) are modelled as Int: every value the embedded
code stores in them is produced by JSON decoding, which range-checks
against int64 bounds before storing, or by counting list elements, so no
wraparound is reachable.
-/

namespace PhpFpmExporter

/-- ASCII decimal digit test, mirroring the Go comparison 0x30 <= c <= 0x39
used by strconv.Atoi and net/url. -/
def isDigitCh (c : Char) : Bool := 48 ≤ c.toNat && c.toNat ≤ 57

/-- ASCII uppercase letter test. -/
def isUpperCh (c : Char) : Bool := 65 ≤ c.toNat && c.toNat ≤ 90

/-- ASCII lowercase letter test. -/
def isLowerCh (c : Char) : Bool := 97 ≤ c.toNat && c.toNat ≤ 122

/-- ASCII letter test, mirroring net/url getScheme. -/
def isAlphaCh (c : Char) : Bool := isUpperCh c || isLowerCh c

/-- Control bytes rejected by net/url.Parse (below 0x20, or 0x7f). -/
def isCtlCh (c : Char) : Bool := c.toNat < 32 || c.toNat == 127

/-- ASCII lower-casing of one character, as strings.ToLower does on the
ASCII scheme names in scope. -/
def asciiLower (c : Char) : Char :=
  if isUpperCh c then Char.ofNat (c.toNat + 32) else c

/-- Case-insensitive key comparison, mirroring the case-insensitive JSON
object-key match of encoding/json for the ASCII field tags of this file. -/
def eqFold (a b : String) : Bool :=
  a.data.map asciiLower == b.data.map asciiLower

/-- Numeric value of an ASCII digit, as the Go expression c - 0x30. -/
def digitVal (c : Char) : Nat := c.toNat - 48

/-- Accumulating decimal scan, mirroring the digit loop of strconv.Atoi:
every character must be a digit, and the value is built left to right. -/
def parseDigits : Nat → List Char → Option Nat
  | acc, [] => some acc
  | acc, c :: cs => if isDigitCh c then parseDigits (acc * 10 + digitVal c) cs else none

/-- The ASCII digit for a value below ten, as the Go expression 0x30 + d. -/
def digitChar (n : Nat) : Char :=
  match n with
  | 0 => '0' | 1 => '1' | 2 => '2' | 3 => '3' | 4 => '4'
  | 5 => '5' | 6 => '6' | 7 => '7' | 8 => '8' | _ => '9'

/-- Division loop of the decimal rendering, with an explicit bound on the
number of division steps so that the recursion is structural and the
definition computes by plain reduction; the value itself always bounds its
digit count. -/
def natDigitsAux : Nat → Nat → List Char
  | 0, n => [digitChar n]
  | fuel + 1, n =>
    if n < 10 then [digitChar n]
    else natDigitsAux fuel (n / 10) ++ [digitChar (n % 10)]

/-- Minimal decimal digit string of a natural number, most significant digit
first, as fmt.Sprint renders a non-negative integer. -/
def natDigits (n : Nat) : List Char := natDigitsAux n n

/-- Decimal rendering of an Int, mirroring fmt.Sprint on an int64: minimal
digits, with a leading minus sign for negative values. -/
def intToDecimal (n : Int) : String :=
  if n < 0 then String.mk ('-' :: natDigits (-n).toNat) else String.mk (natDigits n.toNat)

/-- Largest int64 value, as in the strconv range checks. -/
def int64Max : Int := 9223372036854775807

/-- Smallest int64 value, as in the strconv range checks. -/
def int64Min : Int := -9223372036854775808

/-- Model of strconv.Atoi on a 64-bit platform, over the character list of
the input: an optional single sign followed by at least one ASCII digit;
any other character is a syntax error, and a value outside the int64 range
is a range error. The exact Go error strings are abbreviated; only success
versus failure is relied on. -/
def goAtoiList : List Char → Except String Int
  | [] => .error "invalid syntax"
  | c :: rest =>
    let ds := if c = '-' ∨ c = '+' then rest else c :: rest
    match ds with
    | [] => .error "invalid syntax"
    | _ :: _ =>
      match parseDigits 0 ds with
      | none => .error "invalid syntax"
      | some n =>
        if c = '-' then
          if (n : Int) ≤ 9223372036854775808 then .ok (-(n : Int)) else .error "value out of range"
        else
          if (n : Int) ≤ int64Max then .ok (n : Int) else .error "value out of range"

/-- strconv.Atoi on a string input. -/
def goAtoi (s : String) : Except String Int := goAtoiList s.data

/-- Result of net/url.Parse as far as Pool.Update consumes it: the scheme,
the authority host (still carrying any port), and the path. -/
structure GoURL where
  scheme : String
  host : String
  path : String
deriving Repr, DecidableEq

/-- Split a character list at the first occurrence of a separator: the
pieces before and after it, the whole list and nothing when absent. This is
how net/url cuts off the fragment and query parts. -/
def splitFirst (sep : Char) : List Char → List Char × List Char
  | [] => ([], [])
  | c :: cs =>
    if c = sep then ([], cs)
    else
      let r := splitFirst sep cs
      (c :: r.1, r.2)

/-- Split a character list around the last occurrence of a separator, or
none when the separator is absent; mirrors strings.LastIndex uses inside
net/url. -/
def splitLast (sep : Char) (l : List Char) : Option (List Char × List Char) :=
  let p := l.reverse.span (fun c => !(c == sep))
  match p.2 with
  | [] => none
  | _ :: before => some (before.reverse, p.1.reverse)

/-- Scheme scanner of net/url.Parse (getScheme): letters then letters,
digits, plus, minus or dot up to a colon give a scheme; a leading
non-letter means no scheme at all; a colon at position zero is the error
missing protocol scheme. Returns the scheme and the remainder. -/
def getschemeAux (orig : List Char) : List Char → List Char → Except String (List Char × List Char)
  | _, [] => .ok ([], orig)
  | acc, c :: rest =>
    if isAlphaCh c then getschemeAux orig (acc ++ [c]) rest
    else if isDigitCh c || c = '+' || c = '-' || c = '.' then
      if acc = [] then .ok ([], orig) else getschemeAux orig (acc ++ [c]) rest
    else if c = ':' then
      if acc = [] then .error "missing protocol scheme"
      else .ok (acc, rest)
    else .ok ([], orig)

/-- Entry point of the scheme scanner. -/
def getscheme (l : List Char) : Except String (List Char × List Char) :=
  getschemeAux l [] l

/-- Port validation of net/url (validOptionalPort): empty, or a colon
followed by zero or more ASCII digits. -/
def validOptionalPort : List Char → Bool
  | [] => true
  | c :: rest => c == ':' && rest.all isDigitCh

/-- Host validation of net/url parseHost on the addresses in scope: a
bracketed host needs a closing bracket and a valid optional port after it;
otherwise whatever follows the last colon, if any, must be a valid port.
Percent escapes do not occur in the modelled address space. -/
def parseHostModel (h : List Char) : Except String Unit :=
  match h with
  | '[' :: _ =>
    match splitLast ']' h with
    | none => .error "missing right bracket in host"
    | some (_, after) =>
      if validOptionalPort after then .ok ()
      else .error ("invalid port " ++ String.mk after ++ " after host")
  | _ =>
    match splitLast ':' h with
    | none => .ok ()
    | some (_, after) =>
      if validOptionalPort (':' :: after) then .ok ()
      else .error ("invalid port :" ++ String.mk after ++ " after host")

/-- Userinfo stripping of net/url parseAuthority: the host is what follows
the last at sign, the whole authority when there is none. -/
def hostPartOf (auth : List Char) : List Char :=
  match splitLast '@' auth with
  | none => auth
  | some (_, after) => after

/-- Model of net/url.Parse on the address grammar this exporter feeds it:
the fragment is cut off at the first hash and only the part before it is
checked for control characters, as in net/url where parse runs on the
pre-fragment piece; the scheme is scanned and lower-cased; a double slash
opens an authority running to the next slash, whose host part is
validated; otherwise a rooted remainder is a path, a scheme-carrying
remainder is opaque, and a relative remainder whose first segment carries
a colon is the error first path segment in URL cannot contain colon.
Percent escapes, which never occur in the addresses in scope (neither in
the address proper nor in a fragment), are not interpreted. -/
def urlParse (s : String) : Except String GoURL :=
  let l := s.data
  let u := (splitFirst '#' l).1
  if u.any isCtlCh then .error "invalid control character in URL"
  else
    match getscheme u with
    | .error e => .error e
    | .ok (sch0, rest0) =>
      let sch := sch0.map asciiLower
      let rest := (splitFirst '?' rest0).1
      match rest with
      | '/' :: '/' :: after =>
        let sp := after.span (fun c => !(c == '/'))
        let hostPart := hostPartOf sp.1
        match parseHostModel hostPart with
        | .error e => .error e
        | .ok _ => .ok ⟨String.mk sch, String.mk hostPart, String.mk sp.2⟩
      | '/' :: _ => .ok ⟨String.mk sch, "", String.mk rest⟩
      | _ =>
        if sch = [] then
          if ((splitFirst '/' rest).1).contains ':' then
            .error "first path segment in URL cannot contain colon"
          else .ok ⟨"", "", String.mk rest⟩
        else .ok ⟨String.mk sch, "", ""⟩

/-- Bracket stripping of net/url splitHostPort. -/
def stripBrackets (h : List Char) : List Char :=
  if h.head? = some '[' ∧ h.getLast? = some ']' then (h.drop 1).dropLast else h

/-- Host and port split of net/url splitHostPort, as URL.Hostname and
URL.Port use it: the part after the last colon is a port exactly when it is
all digits, and surrounding brackets are stripped from the host. -/
def splitHostPort (hp : List Char) : List Char × List Char :=
  let p := hp.reverse.span isDigitCh
  match p.2 with
  | ':' :: beforeRev => (stripBrackets beforeRev.reverse, p.1.reverse)
  | _ => (stripBrackets hp, [])

/-- URL.Hostname of the parsed address. -/
def uriHostname (u : GoURL) : String := String.mk (splitHostPort u.host.data).1

/-- URL.Port of the parsed address. -/
def uriPort (u : GoURL) : String := String.mk (splitHostPort u.host.data).2

/-- JSON values as encoding/json sees a syntactically valid payload.
Numbers carry their integer value: every numeric field of the status page
is an integer, and numeric literals are taken to be written in plain
decimal form (the float64 field last request cpu is likewise modelled at
its integral points). Strings are taken free of escape sequences. -/
inductive Json where
  | null
  | bool (b : Bool)
  | num (n : Int)
  | str (s : String)
  | arr (elems : List Json)
  | obj (fields : List (String × Json))
deriving Repr

mutual

/-- Raw bytes of a JSON value as a custom UnmarshalJSON method receives
them; for the payloads in scope this is the compact decimal or literal
text of the value. -/
def renderJson : Json → String
  | .null => "null"
  | .bool true => "true"
  | .bool false => "false"
  | .num n => intToDecimal n
  | .str s => "\"" ++ s ++ "\""
  | .arr xs => "[" ++ renderArr xs ++ "]"
  | .obj kvs => "\x7b" ++ renderObj kvs ++ "\x7d"

/-- Comma-joined rendering of array elements. -/
def renderArr : List Json → String
  | [] => ""
  | [x] => renderJson x
  | x :: xs => renderJson x ++ "," ++ renderArr xs

/-- Comma-joined rendering of object members. -/
def renderObj : List (String × Json) → String
  | [] => ""
  | [kv] => "\"" ++ kv.1 ++ "\":" ++ renderJson kv.2
  | kv :: kvs => "\"" ++ kv.1 ++ "\":" ++ renderJson kv.2 ++ "," ++ renderObj kvs

end

/-- Error classification of one scrape attempt, by the step of Pool.Update
that produced the error: url.Parse (line 133), fcgiclient.DialTimeout
(line 138), fcgi.Get (line 145), ioutil.ReadAll (line 152) or
json.Unmarshal (line 159). The Go code returns an undiscriminated error
value; the step is identified here by the return site. -/
inductive ScrapeErr where
  | address (msg : String)
  | dial (msg : String)
  | request (msg : String)
  | readBody (msg : String)
  | decode (msg : String)
deriving Repr, DecidableEq

/-- PoolProcess (lines 75 to 89): one PHP-FPM worker process as decoded
from the status payload. Field order and JSON tags follow the source. -/
structure PoolProcess where
  pid : Int
  state : String
  startTime : Int
  startSince : Int
  requests : Int
  requestDuration : Int
  requestMethod : String
  requestURI : String
  contentLength : Int
  user : String
  script : String
  lastRequestCPU : Int
  lastRequestMemory : Int
deriving Repr, DecidableEq

/-- Go zero value of PoolProcess. -/
def zeroProcess : PoolProcess :=
  ⟨0, "", 0, 0, 0, 0, "", "", 0, "", "", 0, 0⟩

/-- Pool (lines 52 to 72): one PHP-FPM pool with its address, scrape
metadata (last error and cumulative failure count, JSON tag minus) and the
snapshot fields decoded from the status payload. -/
structure Pool where
  address : String
  scrapeError : Option ScrapeErr
  scrapeFailures : Int
  name : String
  processManager : String
  startTime : Int
  startSince : Int
  acceptedConnections : Int
  listenQueue : Int
  maxListenQueue : Int
  listenQueueLength : Int
  idleProcesses : Int
  activeProcesses : Int
  totalProcesses : Int
  maxActiveProcesses : Int
  maxChildrenReached : Int
  slowRequests : Int
  processes : List PoolProcess
deriving Repr, DecidableEq

/-- Go zero value of Pool, as PoolManager.Add creates it before setting
the address. -/
def zeroPool : Pool :=
  ⟨"", none, 0, "", "", 0, 0, 0, 0, 0, 0, 0, 0, 0, 0, 0, 0, []⟩

/-- timestamp.UnmarshalJSON (lines 202 to 209): strconv.Atoi on the raw
bytes of the JSON value, then time.Unix(ts, 0). The stored time.Time is
represented by its Unix-seconds value, using that time.Unix(n, 0).Unix()
returns n again. -/
def unmarshalTimestamp (b : String) : Except String Int := goAtoi b

/-- timestamp.MarshalJSON (lines 195 to 199): fmt.Sprint of
time.Time(*t).Unix(), the bare decimal epoch-seconds with no quoting. -/
def marshalTimestamp (t : Int) : String := intToDecimal t

/-- First-error retention of encoding/json saveError: a later error never
replaces an earlier saved one. -/
def savedOr (saved : Option String) (e : String) : Option String :=
  match saved with
  | some e0 => some e0
  | none => some e

/-- Whether an integer fits int64, as the strconv.ParseInt call inside
encoding/json checks before storing into an int64 field. -/
def int64InRange (n : Int) : Bool :=
  int64Min ≤ n && n ≤ int64Max

/-- Decoding of one JSON value into an int64 struct field, after
encoding/json: an in-range number is stored, null is a no-op, and any
other value (or an out-of-range number) leaves the field unchanged and
records an UnmarshalTypeError through saveError, decoding then continuing. -/
def decInt64 (v : Json) (cur : Int) (saved : Option String) (field : String) : Int × Option String :=
  match v with
  | .num n =>
    if int64InRange n then (n, saved)
    else (cur, savedOr saved ("cannot unmarshal number into field " ++ field))
  | .null => (cur, saved)
  | _ => (cur, savedOr saved ("cannot unmarshal value into field " ++ field))

/-- Decoding of one JSON value into a float64 struct field (any number is
accepted), after encoding/json; values in scope are integral. -/
def decNumber (v : Json) (cur : Int) (saved : Option String) (field : String) : Int × Option String :=
  match v with
  | .num n => (n, saved)
  | .null => (cur, saved)
  | _ => (cur, savedOr saved ("cannot unmarshal value into field " ++ field))

/-- Decoding of one JSON value into a string struct field, after
encoding/json: a string is stored, null is a no-op, anything else is a
saved UnmarshalTypeError with the field left unchanged. -/
def decString (v : Json) (cur : String) (saved : Option String) (field : String) : String × Option String :=
  match v with
  | .str s => (s, saved)
  | .null => (cur, saved)
  | _ => (cur, savedOr saved ("cannot unmarshal value into field " ++ field))

/-- Member loop of encoding/json over a PoolProcess object: keys are
matched case-insensitively against the JSON tags of lines 76 to 88,
unknown keys are skipped, type mismatches are saved and decoding
continues, later duplicate keys overwrite earlier ones. -/
def decodeProcessFields : PoolProcess → Option String → List (String × Json) → PoolProcess × Option String
  | pr, saved, [] => (pr, saved)
  | pr, saved, (k, v) :: rest =>
    if eqFold k "pid" then
      let r := decInt64 v pr.pid saved "PID"
      decodeProcessFields { pr with pid := r.1 } r.2 rest
    else if eqFold k "state" then
      let r := decString v pr.state saved "State"
      decodeProcessFields { pr with state := r.1 } r.2 rest
    else if eqFold k "start time" then
      let r := decInt64 v pr.startTime saved "StartTime"
      decodeProcessFields { pr with startTime := r.1 } r.2 rest
    else if eqFold k "start since" then
      let r := decInt64 v pr.startSince saved "StartSince"
      decodeProcessFields { pr with startSince := r.1 } r.2 rest
    else if eqFold k "requests" then
      let r := decInt64 v pr.requests saved "Requests"
      decodeProcessFields { pr with requests := r.1 } r.2 rest
    else if eqFold k "request duration" then
      let r := decInt64 v pr.requestDuration saved "RequestDuration"
      decodeProcessFields { pr with requestDuration := r.1 } r.2 rest
    else if eqFold k "request method" then
      let r := decString v pr.requestMethod saved "RequestMethod"
      decodeProcessFields { pr with requestMethod := r.1 } r.2 rest
    else if eqFold k "request uri" then
      let r := decString v pr.requestURI saved "RequestURI"
      decodeProcessFields { pr with requestURI := r.1 } r.2 rest
    else if eqFold k "content length" then
      let r := decInt64 v pr.contentLength saved "ContentLength"
      decodeProcessFields { pr with contentLength := r.1 } r.2 rest
    else if eqFold k "user" then
      let r := decString v pr.user saved "User"
      decodeProcessFields { pr with user := r.1 } r.2 rest
    else if eqFold k "script" then
      let r := decString v pr.script saved "Script"
      decodeProcessFields { pr with script := r.1 } r.2 rest
    else if eqFold k "last request cpu" then
      let r := decNumber v pr.lastRequestCPU saved "LastRequestCPU"
      decodeProcessFields { pr with lastRequestCPU := r.1 } r.2 rest
    else if eqFold k "last request memory" then
      let r := decInt64 v pr.lastRequestMemory saved "LastRequestMemory"
      decodeProcessFields { pr with lastRequestMemory := r.1 } r.2 rest
    else decodeProcessFields pr saved rest

/-- Decoding of one array element into a PoolProcess: an object runs the
member loop over the retained element value, null is a no-op, anything
else is a saved type error. PoolProcess has no custom unmarshaler, so no
element error is fatal. -/
def decodeProcess (base : PoolProcess) (j : Json) (saved : Option String) : PoolProcess × Option String :=
  match j with
  | .obj kvs => decodeProcessFields base saved kvs
  | .null => (base, saved)
  | _ => (base, savedOr saved "cannot unmarshal value into PoolProcess")

/-- Element loop of encoding/json array decoding into a slice: element i
is decoded on top of the retained previous element at that index (the
reflect-based decoder reuses the backing array; the model takes capacity
equal to length) and on top of a zero PoolProcess beyond the old length. -/
def decodeProcessesAux (old : List PoolProcess) : Nat → Option String → List Json → List PoolProcess × Option String
  | _, saved, [] => ([], saved)
  | i, saved, e :: es =>
    let base := (old.get? i).getD zeroProcess
    let r := decodeProcess base e saved
    let rr := decodeProcessesAux old (i + 1) r.2 es
    (r.1 :: rr.1, rr.2)

/-- Decoding of the processes field: an array is decoded elementwise with
the resulting slice truncated or grown to the payload length, null sets
the slice to nil, anything else is a saved type error leaving the old
slice in place. -/
def decodeProcesses (old : List PoolProcess) (v : Json) (saved : Option String) : List PoolProcess × Option String :=
  match v with
  | .arr es => decodeProcessesAux old 0 saved es
  | .null => ([], saved)
  | _ => (old, savedOr saved "cannot unmarshal value into processes slice")

/-- Outcome of decoding one object member into the Pool: either continue
the member loop with the updated pool and saved error, or abort at once
(the fatal path of an error from a custom unmarshaler, which
encoding/json raises through its panic-based error path). -/
inductive FieldStep where
  | cont (p : Pool) (saved : Option String)
  | fatal (p : Pool) (e : String)

/-- The pool carried by a FieldStep. -/
def FieldStep.pool : FieldStep → Pool
  | .cont p _ => p
  | .fatal p _ => p

/-- One member of the Pool object: the key is matched case-insensitively
against the JSON tags of lines 54 to 71 (Address, ScrapeError and
ScrapeFailures carry tag minus and are never decoded), unknown keys are
skipped, and type mismatches are saved while decoding continues. The
start time field has the custom timestamp.UnmarshalJSON (line 202): it
receives the raw bytes of the value and runs strconv.Atoi on them; an
error from it is fatal, aborting the member loop at once with that error
while keeping every field already written. -/
def decodePoolKey (p : Pool) (saved : Option String) (k : String) (v : Json) : FieldStep :=
  if eqFold k "pool" then
    let r := decString v p.name saved "Name"
    .cont { p with name := r.1 } r.2
  else if eqFold k "process manager" then
    let r := decString v p.processManager saved "ProcessManager"
    .cont { p with processManager := r.1 } r.2
  else if eqFold k "start time" then
    match unmarshalTimestamp (renderJson v) with
    | .error e => .fatal p e
    | .ok n => .cont { p with startTime := n } saved
  else if eqFold k "start since" then
    let r := decInt64 v p.startSince saved "StartSince"
    .cont { p with startSince := r.1 } r.2
  else if eqFold k "accepted conn" then
    let r := decInt64 v p.acceptedConnections saved "AcceptedConnections"
    .cont { p with acceptedConnections := r.1 } r.2
  else if eqFold k "listen queue" then
    let r := decInt64 v p.listenQueue saved "ListenQueue"
    .cont { p with listenQueue := r.1 } r.2
  else if eqFold k "max listen queue" then
    let r := decInt64 v p.maxListenQueue saved "MaxListenQueue"
    .cont { p with maxListenQueue := r.1 } r.2
  else if eqFold k "listen queue len" then
    let r := decInt64 v p.listenQueueLength saved "ListenQueueLength"
    .cont { p with listenQueueLength := r.1 } r.2
  else if eqFold k "idle processes" then
    let r := decInt64 v p.idleProcesses saved "IdleProcesses"
    .cont { p with idleProcesses := r.1 } r.2
  else if eqFold k "active processes" then
    let r := decInt64 v p.activeProcesses saved "ActiveProcesses"
    .cont { p with activeProcesses := r.1 } r.2
  else if eqFold k "total processes" then
    let r := decInt64 v p.totalProcesses saved "TotalProcesses"
    .cont { p with totalProcesses := r.1 } r.2
  else if eqFold k "max active processes" then
    let r := decInt64 v p.maxActiveProcesses saved "MaxActiveProcesses"
    .cont { p with maxActiveProcesses := r.1 } r.2
  else if eqFold k "max children reached" then
    let r := decInt64 v p.maxChildrenReached saved "MaxChildrenReached"
    .cont { p with maxChildrenReached := r.1 } r.2
  else if eqFold k "slow requests" then
    let r := decInt64 v p.slowRequests saved "SlowRequests"
    .cont { p with slowRequests := r.1 } r.2
  else if eqFold k "processes" then
    let r := decodeProcesses p.processes v saved
    .cont { p with processes := r.1 } r.2
  else .cont p saved

/-- Member loop of encoding/json over the Pool object, in payload order:
each member is decoded by decodePoolKey, a fatal step returns its error at
once, and the loop otherwise ends with the first saved error, if any. -/
def decodePoolFields : Pool → Option String → List (String × Json) → Pool × Option String
  | p, saved, [] => (p, saved)
  | p, saved, (k, v) :: rest =>
    match decodePoolKey p saved k v with
    | .cont p1 s1 => decodePoolFields p1 s1 rest
    | .fatal p1 e => (p1, some e)

/-- The json.Unmarshal call of Pool.Update line 159 on a syntactically
valid payload, decoding in place into the existing pool value: an object
runs the member loop, null is a no-op (it clears the local pointer, not
the pool), anything else is an UnmarshalTypeError touching no field. -/
def unmarshalPool (p : Pool) (j : Json) : Pool × Option String :=
  match j with
  | .obj kvs => decodePoolFields p none kvs
  | .null => (p, none)
  | _ => (p, some "cannot unmarshal value into Pool")

/-- PoolProcessRequestIdle (line 30). -/
def PoolProcessRequestIdle : String := "Idle"

/-- PoolProcessRequestActive (line 33). -/
def PoolProcessRequestActive : String := "Running"

/-- Accumulator of the scoreboard loop: the two counters plus the list of
diagnostics the loop emits through log.Errorf. -/
structure ScoreAcc where
  active : Int
  idle : Int
  logs : List String
deriving Repr, DecidableEq

/-- Loop body of CalculateProcessScoreboard (lines 178 to 187): a Running
state increments active, an Idle state increments idle, and any other
state increments neither but emits the unknown-process-state diagnostic
(the Go format string wraps the state in single quotation marks, elided
here). -/
def scoreboardLoop : List PoolProcess → ScoreAcc
  | [] => ⟨0, 0, []⟩
  | pr :: rest =>
    let r := scoreboardLoop rest
    if pr.state = PoolProcessRequestActive then ⟨r.active + 1, r.idle, r.logs⟩
    else if pr.state = PoolProcessRequestIdle then ⟨r.active, r.idle + 1, r.logs⟩
    else ⟨r.active, r.idle, ("Unknown process state " ++ pr.state) :: r.logs⟩

/-- CalculateProcessScoreboard (lines 173 to 190): returns active, idle
and active plus idle (line 189), paired here with the diagnostics the loop
emitted. -/
def calculateProcessScoreboard (p : Pool) : (Int × Int × Int) × List String :=
  let r := scoreboardLoop p.processes
  ((r.active, r.idle, r.active + r.idle), r.logs)

/-- Arguments of the fcgiclient.DialTimeout call of line 138: the network
is uri.Scheme, the address is uri.Hostname() concatenated with a colon and
uri.Port(), and the timeout is three seconds. -/
structure DialArgs where
  network : String
  address : String
  timeoutSeconds : Nat
deriving Repr, DecidableEq

/-- Oracle for the one network interaction of a scrape attempt: the
outcome of the DialTimeout call, of the fcgi.Get call, and the response
body (an I/O error from ReadAll, or bytes that are not valid JSON, or a
syntactically valid JSON value). -/
structure ScrapeOutcome where
  dialErr : Option String
  requestErr : Option String
  body : Except String (Option Json)

/-- Failure recording of Pool.error (lines 166 to 171): the error is
stored, the cumulative failure counter is incremented, the error is
logged, and the same error is returned. -/
def recordFailure (p : Pool) (e : ScrapeErr) : Pool :=
  { p with scrapeError := some e, scrapeFailures := p.scrapeFailures + 1 }

/-- Result of one Pool.Update call: the mutated pool, the returned error,
and the arguments that reached DialTimeout when address parsing succeeded. -/
structure UpdateResult where
  pool : Pool
  err : Option ScrapeErr
  dialArgs : Option DialArgs
deriving Repr, DecidableEq

/-- Lines 152 to 163 of Pool.Update: read the response body and
json.Unmarshal it into the pool in place; an I/O error, a body that is not
valid JSON (checkValid fails before any field is written), and an error
from the member decoding all route through Pool.error on the pool as
mutated so far. -/
def updateBody (p : Pool) (o : ScrapeOutcome) (da : DialArgs) : UpdateResult :=
  match o.body with
  | .error m => ⟨recordFailure p (.readBody m), some (.readBody m), some da⟩
  | .ok none =>
    ⟨recordFailure p (.decode "invalid character in payload"),
      some (.decode "invalid character in payload"), some da⟩
  | .ok (some j) =>
    match unmarshalPool p j with
    | (p1, some m) => ⟨recordFailure p1 (.decode m), some (.decode m), some da⟩
    | (p1, none) => ⟨p1, none, some da⟩

/-- Lines 138 to 150 of Pool.Update: the DialTimeout call and the
fcgi.Get status request, each failing through Pool.error, then the body
phase. -/
def updateConn (p : Pool) (o : ScrapeOutcome) (da : DialArgs) : UpdateResult :=
  match o.dialErr with
  | some m => ⟨recordFailure p (.dial m), some (.dial m), some da⟩
  | none =>
    match o.requestErr with
    | some m => ⟨recordFailure p (.request m), some (.request m), some da⟩
    | none => updateBody p o da

/-- Pool.Update (lines 122 to 164): clear ScrapeError, parse the address,
then connect and scrape; a parse failure routes through Pool.error before
any connection, and otherwise DialTimeout receives uri.Scheme as the
network and uri.Hostname() plus colon plus uri.Port() as the endpoint with
a three-second timeout (line 138). -/
def poolUpdate (p0 : Pool) (o : ScrapeOutcome) : UpdateResult :=
  let p : Pool := { p0 with scrapeError := none }
  match urlParse p0.address with
  | .error m => ⟨recordFailure p (.address m), some (.address m), none⟩
  | .ok uri => updateConn p o ⟨uri.scheme, uriHostname uri ++ ":" ++ uriPort uri, 3⟩

/-- A sequence of scrape attempts on one pool, each applying Pool.Update. -/
def runScrapes (p : Pool) (os : List ScrapeOutcome) : Pool :=
  os.foldl (fun q o => (poolUpdate q o).pool) p

/-- PoolManager (lines 47 to 49): the ordered collection of pools. -/
structure PoolManager where
  pools : List Pool
deriving Repr, DecidableEq

/-- PoolManager.Add (lines 92 to 96): build a Pool value whose only
non-zero field is the address, append it to the collection, and return
that value (a copy, by Go struct value semantics). -/
def poolManagerAdd (pm : PoolManager) (uri : String) : PoolManager × Pool :=
  let p : Pool := { zeroPool with address := uri }
  (⟨pm.pools ++ [p]⟩, p)

/-- PoolManager.Update (lines 99 to 119): run Pool.Update on every pool
and return nil (line 118). Each spawned goroutine mutates only its own
pool entry, so the concurrent fan-out is modelled by the independent
per-pool updates, each driven by that pool's own outcome in the list. -/
def poolManagerUpdate (pm : PoolManager) (os : List ScrapeOutcome) : PoolManager × Option ScrapeErr :=
  (⟨List.zipWith (fun p o => (poolUpdate p o).pool) pm.pools os⟩, none)

theorem parseDigits_append (acc : Nat) (xs ys : List Char) :
    parseDigits acc (xs ++ ys) = (parseDigits acc xs).bind (fun m => parseDigits m ys) := by
  induction xs generalizing acc with
  | nil => simp [parseDigits]
  | cons c cs ih =>
    by_cases h : isDigitCh c
    · simp [parseDigits, h, ih]
    · simp [parseDigits, h]

theorem digitChar_digit (n : Nat) (h : n < 10) : isDigitCh (digitChar n) = true := by
  interval_cases n <;> decide

theorem digitVal_digitChar (n : Nat) (h : n < 10) : digitVal (digitChar n) = n := by
  interval_cases n <;> decide

theorem natDigitsAux_congr : ∀ f1 f2 n, n ≤ f1 → n ≤ f2 → natDigitsAux f1 n = natDigitsAux f2 n := by
  intro f1
  induction f1 with
  | zero =>
    intro f2 n h1 h2
    obtain rfl : n = 0 := by omega
    cases f2 with
    | zero => rfl
    | succ g => rw [natDigitsAux, natDigitsAux, if_pos (by omega)]
  | succ f ih =>
    intro f2 n h1 h2
    cases f2 with
    | zero =>
      obtain rfl : n = 0 := by omega
      rw [natDigitsAux, natDigitsAux, if_pos (by omega)]
    | succ g =>
      rw [natDigitsAux, natDigitsAux]
      by_cases h : n < 10
      · rw [if_pos h, if_pos h]
      · rw [if_neg h, if_neg h]
        have hd : n / 10 ≤ f := by omega
        have hd2 : n / 10 ≤ g := by omega
        rw [ih g (n / 10) hd hd2]

theorem natDigits_eq (n : Nat) :
    natDigits n = if n < 10 then [digitChar n] else natDigits (n / 10) ++ [digitChar (n % 10)] := by
  show natDigitsAux n n = _
  cases n with
  | zero => rw [natDigitsAux, if_pos (by omega)]
  | succ m =>
    rw [natDigitsAux]
    by_cases h : m + 1 < 10
    · rw [if_pos h, if_pos h]
    · rw [if_neg h, if_neg h]
      show natDigitsAux m ((m + 1) / 10) ++ _ = natDigitsAux ((m + 1) / 10) ((m + 1) / 10) ++ _
      rw [natDigitsAux_congr m ((m + 1) / 10) ((m + 1) / 10) (by omega) (le_refl _)]

theorem natDigits_ne_nil (n : Nat) : natDigits n ≠ [] := by
  rw [natDigits_eq]
  split <;> simp

theorem natDigits_all_digits (n : Nat) : ∀ c ∈ natDigits n, isDigitCh c = true := by
  induction n using Nat.strong_induction_on with
  | _ n ih =>
    intro c hc
    rw [natDigits_eq] at hc
    split at hc
    next h =>
      simp only [List.mem_singleton] at hc
      subst hc
      exact digitChar_digit n h
    next h =>
      simp only [List.mem_append, List.mem_singleton] at hc
      rcases hc with hc | hc
      · exact ih (n / 10) (Nat.div_lt_self (by omega) (by omega)) c hc
      · subst hc
        exact digitChar_digit _ (Nat.mod_lt _ (by omega))

theorem parseDigits_natDigits (n : Nat) :
    ∀ acc, parseDigits acc (natDigits n) = some (acc * 10 ^ (natDigits n).length + n) := by
  induction n using Nat.strong_induction_on with
  | _ n ih =>
    intro acc
    by_cases h : n < 10
    · rw [natDigits_eq]
      simp [h, parseDigits, digitChar_digit n h, digitVal_digitChar n h]
    · rw [natDigits_eq, if_neg h]
      rw [parseDigits_append, ih (n / 10) (Nat.div_lt_self (by omega) (by omega)) acc]
      have hm : n % 10 < 10 := Nat.mod_lt _ (by omega)
      simp only [Option.some_bind, parseDigits, digitChar_digit _ hm, if_true,
        digitVal_digitChar _ hm, List.length_append, List.length_singleton]
      congr 1
      rw [pow_succ, ← mul_assoc]
      generalize acc * 10 ^ (natDigits (n / 10)).length = A
      omega

theorem parseDigits_natDigits_zero (n : Nat) : parseDigits 0 (natDigits n) = some n := by
  simpa using parseDigits_natDigits n 0

theorem goAtoiList_neg_digits (m : Nat) :
    goAtoiList ('-' :: natDigits m)
      = if (m : Int) ≤ 9223372036854775808 then .ok (-(m : Int)) else .error "value out of range" := by
  obtain ⟨d, ds, hnd⟩ := List.exists_cons_of_ne_nil (natDigits_ne_nil m)
  have hp : parseDigits 0 (natDigits m) = some m := parseDigits_natDigits_zero m
  rw [hnd] at hp ⊢
  rw [goAtoiList.eq_def]
  simp only [true_or, ite_true, eq_self_iff_true]
  rw [hp]

theorem goAtoiList_pos_digits (m : Nat) :
    goAtoiList (natDigits m)
      = if (m : Int) ≤ int64Max then .ok (m : Int) else .error "value out of range" := by
  obtain ⟨d, ds, hnd⟩ := List.exists_cons_of_ne_nil (natDigits_ne_nil m)
  have hp : parseDigits 0 (natDigits m) = some m := parseDigits_natDigits_zero m
  have hd : isDigitCh d = true :=
    natDigits_all_digits m d (by rw [hnd]; exact List.mem_cons_self d ds)
  have hd1 : d ≠ '-' := by intro e; rw [e] at hd; exact absurd hd (by decide)
  have hd2 : d ≠ '+' := by intro e; rw [e] at hd; exact absurd hd (by decide)
  rw [hnd] at hp ⊢
  rw [goAtoiList.eq_def]
  dsimp only
  rw [if_neg (not_or.mpr ⟨hd1, hd2⟩)]
  dsimp only
  rw [hp]
  simp [hd1]

theorem goAtoiList_range (l : List Char) (t : Int) (h : goAtoiList l = .ok t) :
    int64Min ≤ t ∧ t ≤ int64Max := by
  rw [goAtoiList.eq_def] at h
  split at h
  · exact absurd h (by simp)
  · dsimp only at h
    split at h
    · exact absurd h (by simp)
    · split at h
      · exact absurd h (by simp)
      · split at h
        · split at h
          · simp only [Except.ok.injEq] at h
            simp only [int64Min, int64Max]
            omega
          · exact absurd h (by simp)
        · split at h
          · simp only [Except.ok.injEq] at h
            simp only [int64Min, int64Max] at *
            omega
          · exact absurd h (by simp)

theorem goAtoi_intToDecimal (t : Int) (h1 : int64Min ≤ t) (h2 : t ≤ int64Max) :
    goAtoi (intToDecimal t) = .ok t := by
  simp only [int64Min, int64Max] at h1 h2
  unfold goAtoi intToDecimal
  by_cases hneg : t < 0
  · rw [if_pos hneg]
    show goAtoiList ('-' :: natDigits (-t).toNat) = .ok t
    rw [goAtoiList_neg_digits]
    rw [if_pos (by omega)]
    congr 1
    omega
  · rw [if_neg hneg]
    show goAtoiList (natDigits t.toNat) = .ok t
    rw [goAtoiList_pos_digits]
    rw [if_pos (by simp only [int64Max]; omega)]
    congr 1
    omega

/-- C3: the timestamp codec is lossless to the second: whenever
timestamp.UnmarshalJSON accepts a payload as the epoch-seconds value t,
re-encoding t through timestamp.MarshalJSON produces bytes that decode to
exactly t again. -/
theorem c3_timestamp_roundtrip (s : String) (t : Int)
    (h : unmarshalTimestamp s = .ok t) :
    unmarshalTimestamp (marshalTimestamp t) = .ok t := by
  obtain ⟨h1, h2⟩ := goAtoiList_range s.data t h
  exact goAtoi_intToDecimal t h1 h2

theorem c3_timestamp_roundtrip_witness :
    unmarshalTimestamp "1000000000" = .ok 1000000000
    ∧ unmarshalTimestamp (marshalTimestamp 1000000000) = .ok 1000000000 :=
  ⟨by rfl, c3_timestamp_roundtrip "1000000000" 1000000000 (by rfl)⟩

/-- Whether a process state is outside the recognized enumeration; this is
the condition of the default arm of the scoreboard switch. -/
def unknownState (pr : PoolProcess) : Bool :=
  !(pr.state == PoolProcessRequestActive || pr.state == PoolProcessRequestIdle)

theorem scoreboardLoop_spec (l : List PoolProcess) :
    (scoreboardLoop l).active + (scoreboardLoop l).idle
        + ((scoreboardLoop l).logs.length : Int) = (l.length : Int)
    ∧ (scoreboardLoop l).logs
        = (l.filter unknownState).map (fun pr => "Unknown process state " ++ pr.state) := by
  induction l with
  | nil => simp [scoreboardLoop]
  | cons pr rest ih =>
    by_cases h1 : pr.state = PoolProcessRequestActive
    · have hb : unknownState pr = false := by simp [unknownState, h1]
      simp only [scoreboardLoop, if_pos h1, List.length_cons, List.filter_cons, hb,
        Bool.false_eq_true, if_false]
      refine ⟨?_, ih.2⟩
      push_cast
      have := ih.1
      omega
    · by_cases h2 : pr.state = PoolProcessRequestIdle
      · have hb : unknownState pr = false := by simp [unknownState, h2]
        simp only [scoreboardLoop, if_neg h1, if_pos h2, List.length_cons,
          List.filter_cons, hb, Bool.false_eq_true, if_false]
        refine ⟨?_, ih.2⟩
        push_cast
        have := ih.1
        omega
      · have hb : unknownState pr = true := by simp [unknownState, h1, h2]
        simp only [scoreboardLoop, if_neg h1, if_neg h2, List.length_cons,
          List.filter_cons, hb, if_true, List.map_cons]
        refine ⟨?_, by rw [ih.2]⟩
        push_cast
        have := ih.1
        omega

/-- C2: CalculateProcessScoreboard returns the total as active plus idle,
active plus idle is at most the process-list length with equality exactly
when every process state is Idle or Running, and the loop emits one
unknown-state diagnostic per process whose state is neither. -/
theorem c2_scoreboard (p : Pool) :
    (calculateProcessScoreboard p).1.2.2
        = (calculateProcessScoreboard p).1.1 + (calculateProcessScoreboard p).1.2.1
    ∧ (calculateProcessScoreboard p).1.1 + (calculateProcessScoreboard p).1.2.1
        ≤ (p.processes.length : Int)
    ∧ ((calculateProcessScoreboard p).1.1 + (calculateProcessScoreboard p).1.2.1
          = (p.processes.length : Int)
        ↔ ∀ pr ∈ p.processes,
            pr.state = PoolProcessRequestIdle ∨ pr.state = PoolProcessRequestActive)
    ∧ (calculateProcessScoreboard p).2
        = (p.processes.filter unknownState).map
            (fun pr => "Unknown process state " ++ pr.state) := by
  obtain ⟨ha, hl⟩ := scoreboardLoop_spec p.processes
  have hfilter : ∀ pr : PoolProcess,
      unknownState pr = false ↔
        (pr.state = PoolProcessRequestIdle ∨ pr.state = PoolProcessRequestActive) := by
    intro pr
    constructor
    · intro h
      by_cases hA : pr.state = PoolProcessRequestActive
      · exact Or.inr hA
      · by_cases hI : pr.state = PoolProcessRequestIdle
        · exact Or.inl hI
        · exfalso
          have ht : unknownState pr = true := by simp [unknownState, hA, hI]
          rw [ht] at h
          exact absurd h (by decide)
    · rintro (h | h) <;> simp [unknownState, h]
  refine ⟨rfl, ?_, ?_, hl⟩
  · show (scoreboardLoop p.processes).active + (scoreboardLoop p.processes).idle
      ≤ (p.processes.length : Int)
    omega
  · show (scoreboardLoop p.processes).active + (scoreboardLoop p.processes).idle
      = (p.processes.length : Int) ↔ _
    constructor
    · intro he
      have hzero : (scoreboardLoop p.processes).logs.length = 0 := by omega
      rw [hl, List.length_map] at hzero
      have hemp : p.processes.filter unknownState = [] :=
        List.eq_nil_of_length_eq_zero hzero
      intro pr hpr
      have := List.filter_eq_nil_iff.mp hemp pr hpr
      exact (hfilter pr).mp (by simpa using this)
    · intro hall
      have hemp : p.processes.filter unknownState = [] :=
        List.filter_eq_nil_iff.mpr (fun pr hpr => by
          simp [(hfilter pr).mpr (hall pr hpr)])
      rw [hl, hemp] at ha
      simpa using ha

theorem c2_scoreboard_witness :
    (calculateProcessScoreboard
        { zeroPool with processes :=
            [{ zeroProcess with state := "Idle" }, { zeroProcess with state := "Running" }] }).1.1
      + (calculateProcessScoreboard
        { zeroPool with processes :=
            [{ zeroProcess with state := "Idle" }, { zeroProcess with state := "Running" }] }).1.2.1
      = (({ zeroPool with processes :=
            [{ zeroProcess with state := "Idle" }, { zeroProcess with state := "Running" }] } : Pool).processes.length : Int) :=
  (c2_scoreboard _).2.2.1.mpr (by decide)

theorem decodePoolKey_meta (p : Pool) (saved : Option String) (k : String) (v : Json) :
    (decodePoolKey p saved k v).pool.scrapeFailures = p.scrapeFailures
    ∧ (decodePoolKey p saved k v).pool.scrapeError = p.scrapeError
    ∧ (decodePoolKey p saved k v).pool.address = p.address := by
  rw [decodePoolKey]
  by_cases h1 : eqFold k "pool" = true
  · rw [if_pos h1]; exact ⟨rfl, rfl, rfl⟩
  rw [if_neg h1]
  by_cases h2 : eqFold k "process manager" = true
  · rw [if_pos h2]; exact ⟨rfl, rfl, rfl⟩
  rw [if_neg h2]
  by_cases h3 : eqFold k "start time" = true
  · rw [if_pos h3]
    cases unmarshalTimestamp (renderJson v) with
    | error e => exact ⟨rfl, rfl, rfl⟩
    | ok n => exact ⟨rfl, rfl, rfl⟩
  rw [if_neg h3]
  by_cases h4 : eqFold k "start since" = true
  · rw [if_pos h4]; exact ⟨rfl, rfl, rfl⟩
  rw [if_neg h4]
  by_cases h5 : eqFold k "accepted conn" = true
  · rw [if_pos h5]; exact ⟨rfl, rfl, rfl⟩
  rw [if_neg h5]
  by_cases h6 : eqFold k "listen queue" = true
  · rw [if_pos h6]; exact ⟨rfl, rfl, rfl⟩
  rw [if_neg h6]
  by_cases h7 : eqFold k "max listen queue" = true
  · rw [if_pos h7]; exact ⟨rfl, rfl, rfl⟩
  rw [if_neg h7]
  by_cases h8 : eqFold k "listen queue len" = true
  · rw [if_pos h8]; exact ⟨rfl, rfl, rfl⟩
  rw [if_neg h8]
  by_cases h9 : eqFold k "idle processes" = true
  · rw [if_pos h9]; exact ⟨rfl, rfl, rfl⟩
  rw [if_neg h9]
  by_cases h10 : eqFold k "active processes" = true
  · rw [if_pos h10]; exact ⟨rfl, rfl, rfl⟩
  rw [if_neg h10]
  by_cases h11 : eqFold k "total processes" = true
  · rw [if_pos h11]; exact ⟨rfl, rfl, rfl⟩
  rw [if_neg h11]
  by_cases h12 : eqFold k "max active processes" = true
  · rw [if_pos h12]; exact ⟨rfl, rfl, rfl⟩
  rw [if_neg h12]
  by_cases h13 : eqFold k "max children reached" = true
  · rw [if_pos h13]; exact ⟨rfl, rfl, rfl⟩
  rw [if_neg h13]
  by_cases h14 : eqFold k "slow requests" = true
  · rw [if_pos h14]; exact ⟨rfl, rfl, rfl⟩
  rw [if_neg h14]
  by_cases h15 : eqFold k "processes" = true
  · rw [if_pos h15]; exact ⟨rfl, rfl, rfl⟩
  rw [if_neg h15]
  exact ⟨rfl, rfl, rfl⟩

theorem decodePoolFields_meta (kvs : List (String × Json)) :
    ∀ p saved,
      (decodePoolFields p saved kvs).1.scrapeFailures = p.scrapeFailures
      ∧ (decodePoolFields p saved kvs).1.scrapeError = p.scrapeError
      ∧ (decodePoolFields p saved kvs).1.address = p.address := by
  induction kvs with
  | nil =>
    intro p saved
    exact ⟨rfl, rfl, rfl⟩
  | cons kv rest ih =>
    intro p saved
    obtain ⟨k, v⟩ := kv
    rw [decodePoolFields]
    have hk := decodePoolKey_meta p saved k v
    cases hstep : decodePoolKey p saved k v with
    | cont p1 s1 =>
      rw [hstep] at hk
      have h1 := ih p1 s1
      exact ⟨h1.1.trans hk.1, h1.2.1.trans hk.2.1, h1.2.2.trans hk.2.2⟩
    | fatal p1 e =>
      rw [hstep] at hk
      exact hk

theorem unmarshalPool_meta (p : Pool) (j : Json) :
    (unmarshalPool p j).1.scrapeFailures = p.scrapeFailures
    ∧ (unmarshalPool p j).1.scrapeError = p.scrapeError
    ∧ (unmarshalPool p j).1.address = p.address := by
  cases j with
  | obj kvs => exact decodePoolFields_meta kvs p none
  | null => exact ⟨rfl, rfl, rfl⟩
  | bool b => exact ⟨rfl, rfl, rfl⟩
  | num n => exact ⟨rfl, rfl, rfl⟩
  | str s => exact ⟨rfl, rfl, rfl⟩
  | arr xs => exact ⟨rfl, rfl, rfl⟩

theorem updateBody_step (p : Pool) (o : ScrapeOutcome) (da : DialArgs) :
    ((updateBody p o da).err.isSome
        ∧ (updateBody p o da).pool.scrapeFailures = p.scrapeFailures + 1
        ∧ (updateBody p o da).pool.scrapeError = (updateBody p o da).err
        ∧ (updateBody p o da).pool.address = p.address)
    ∨ ((updateBody p o da).err = none
        ∧ (updateBody p o da).pool.scrapeFailures = p.scrapeFailures
        ∧ (updateBody p o da).pool.scrapeError = p.scrapeError
        ∧ (updateBody p o da).pool.address = p.address) := by
  rw [updateBody]
  cases hbody : o.body with
  | error m => left; exact ⟨rfl, rfl, rfl, rfl⟩
  | ok jopt =>
    cases jopt with
    | none => left; exact ⟨rfl, rfl, rfl, rfl⟩
    | some j =>
      dsimp only
      have hm := unmarshalPool_meta p j
      cases hu : unmarshalPool p j with
      | mk p1 e =>
        rw [hu] at hm
        cases e with
        | none => right; exact ⟨rfl, hm.1, hm.2.1, hm.2.2⟩
        | some m =>
          left
          refine ⟨rfl, ?_, rfl, hm.2.2⟩
          show p1.scrapeFailures + 1 = p.scrapeFailures + 1
          rw [hm.1]

theorem updateConn_step (p : Pool) (o : ScrapeOutcome) (da : DialArgs) :
    ((updateConn p o da).err.isSome
        ∧ (updateConn p o da).pool.scrapeFailures = p.scrapeFailures + 1
        ∧ (updateConn p o da).pool.scrapeError = (updateConn p o da).err
        ∧ (updateConn p o da).pool.address = p.address)
    ∨ ((updateConn p o da).err = none
        ∧ (updateConn p o da).pool.scrapeFailures = p.scrapeFailures
        ∧ (updateConn p o da).pool.scrapeError = p.scrapeError
        ∧ (updateConn p o da).pool.address = p.address) := by
  rw [updateConn]
  cases hdial : o.dialErr with
  | some m => left; exact ⟨rfl, rfl, rfl, rfl⟩
  | none =>
    cases hreq : o.requestErr with
    | some m => left; exact ⟨rfl, rfl, rfl, rfl⟩
    | none => exact updateBody_step p o da

theorem poolUpdate_step (p0 : Pool) (o : ScrapeOutcome) :
    ((poolUpdate p0 o).err.isSome
        ∧ (poolUpdate p0 o).pool.scrapeFailures = p0.scrapeFailures + 1
        ∧ (poolUpdate p0 o).pool.scrapeError = (poolUpdate p0 o).err
        ∧ (poolUpdate p0 o).pool.address = p0.address)
    ∨ ((poolUpdate p0 o).err = none
        ∧ (poolUpdate p0 o).pool.scrapeFailures = p0.scrapeFailures
        ∧ (poolUpdate p0 o).pool.scrapeError = none
        ∧ (poolUpdate p0 o).pool.address = p0.address) := by
  rw [poolUpdate]
  cases hparse : urlParse p0.address with
  | error m => left; exact ⟨rfl, rfl, rfl, rfl⟩
  | ok uri =>
    have h := updateConn_step { p0 with scrapeError := none } o
      ⟨uri.scheme, uriHostname uri ++ ":" ++ uriPort uri, 3⟩
    simpa using h

theorem poolUpdate_pre_decode_frame (p : Pool) (o : ScrapeOutcome) (e : ScrapeErr)
    (herr : (poolUpdate p o).err = some e)
    (hpre : (∃ m, urlParse p.address = .error m)
        ∨ o.dialErr.isSome = true ∨ o.requestErr.isSome = true
        ∨ (∃ m, o.body = .error m) ∨ o.body = .ok none) :
    (poolUpdate p o).pool
      = { p with scrapeError := some e, scrapeFailures := p.scrapeFailures + 1 } := by
  rw [poolUpdate] at herr ⊢
  cases hparse : urlParse p.address with
  | error m =>
    rw [hparse] at herr
    dsimp only at herr ⊢
    obtain rfl : ScrapeErr.address m = e := Option.some.inj herr
    rfl
  | ok uri =>
    rw [hparse] at herr
    dsimp only at herr ⊢
    rw [updateConn] at herr ⊢
    cases hdial : o.dialErr with
    | some m =>
      rw [hdial] at herr
      dsimp only at herr ⊢
      obtain rfl : ScrapeErr.dial m = e := Option.some.inj herr
      rfl
    | none =>
      rw [hdial] at herr
      dsimp only at herr ⊢
      cases hreq : o.requestErr with
      | some m =>
        rw [hreq] at herr
        dsimp only at herr ⊢
        obtain rfl : ScrapeErr.request m = e := Option.some.inj herr
        rfl
      | none =>
        rw [hreq] at herr
        dsimp only at herr ⊢
        rw [updateBody] at herr ⊢
        cases hbody : o.body with
        | error m =>
          rw [hbody] at herr
          dsimp only at herr ⊢
          obtain rfl : ScrapeErr.readBody m = e := Option.some.inj herr
          rfl
        | ok jopt =>
          rw [hbody] at herr
          cases jopt with
          | none =>
            dsimp only at herr ⊢
            obtain rfl : ScrapeErr.decode "invalid character in payload" = e :=
              Option.some.inj herr
            rfl
          | some j =>
            exfalso
            rcases hpre with ⟨m, hm⟩ | hd | hr | ⟨m, hm⟩ | hm
            · rw [hparse] at hm; exact absurd hm (by simp)
            · rw [hdial] at hd; exact absurd hd (by simp)
            · rw [hreq] at hr; exact absurd hr (by simp)
            · rw [hbody] at hm; exact absurd hm (by simp)
            · rw [hbody] at hm; exact absurd hm (by simp)

/-- C1 (amended): every failed scrape attempt sets the last-error field to
the encountered error and increments the failure counter by exactly one;
for failures at address parsing, connection, the status request, reading
the body, or a body that is not syntactically valid JSON, every other
field of the pool is left exactly as before. A failure inside the member
decoding of a well-formed body also sets the error and adds one failure,
but snapshot fields already written from the payload before the error can
differ afterwards, as the counterexample shows. -/
theorem c1_failed_scrape_frame (p : Pool) (o : ScrapeOutcome) (e : ScrapeErr)
    (herr : (poolUpdate p o).err = some e) :
    (poolUpdate p o).pool.scrapeError = some e
    ∧ (poolUpdate p o).pool.scrapeFailures = p.scrapeFailures + 1
    ∧ (((∃ m, urlParse p.address = .error m)
        ∨ o.dialErr.isSome = true ∨ o.requestErr.isSome = true
        ∨ (∃ m, o.body = .error m) ∨ o.body = .ok none) →
      (poolUpdate p o).pool
        = { p with scrapeError := some e, scrapeFailures := p.scrapeFailures + 1 }) := by
  refine ⟨?_, ?_, fun hpre => poolUpdate_pre_decode_frame p o e herr hpre⟩
  · rcases poolUpdate_step p o with ⟨_, _, h3, _⟩ | ⟨h1, _⟩
    · rw [h3, herr]
    · rw [herr] at h1; exact absurd h1 (by simp)
  · rcases poolUpdate_step p o with ⟨_, h2, _⟩ | ⟨h1, _⟩
    · exact h2
    · rw [herr] at h1; exact absurd h1 (by simp)

theorem c1_failed_scrape_frame_witness :
    (poolUpdate
        { zeroPool with address := "tcp://127.0.0.1:9000", name := "www", scrapeFailures := 2 }
        ⟨some "connection refused", none, Except.ok none⟩).pool
      = { zeroPool with address := "tcp://127.0.0.1:9000", name := "www", scrapeError := some (.dial "connection refused"), scrapeFailures := 3 } :=
  (c1_failed_scrape_frame
      { zeroPool with address := "tcp://127.0.0.1:9000", name := "www", scrapeFailures := 2 }
      ⟨some "connection refused", none, Except.ok none⟩
      (.dial "connection refused") (by decide)).2.2
    (Or.inr (Or.inl rfl))

/-- C1 counterexample: a scrape failing at the decoding step can change a
snapshot field. The pool previously named www receives the well-formed
payload setting pool to changed and then start since to a boolean: the
boolean is a type error, the attempt fails, yet the stored name afterwards
is changed, not www. -/
theorem c1_decode_failure_mutates :
    (poolUpdate { zeroPool with address := "tcp://127.0.0.1:9000", name := "www" }
        ⟨none, none, Except.ok (some (Json.obj
          [("pool", Json.str "changed"), ("start since", Json.bool true)]))⟩).pool.name
      = "changed"
    ∧ (poolUpdate { zeroPool with address := "tcp://127.0.0.1:9000", name := "www" }
        ⟨none, none, Except.ok (some (Json.obj
          [("pool", Json.str "changed"), ("start since", Json.bool true)]))⟩).err.isSome = true
    ∧ (poolUpdate { zeroPool with address := "tcp://127.0.0.1:9000", name := "www" }
        ⟨none, none, Except.ok (some (Json.obj
          [("pool", Json.str "changed"), ("start since", Json.bool true)]))⟩).pool.scrapeFailures
      = 1 :=
  ⟨by decide, by decide, by decide⟩

/-- C4: over every sequence of scrape attempts the cumulative failure
counter never decreases; a failed attempt adds exactly one and a
successful attempt leaves it exactly unchanged, so nothing ever resets it. -/
theorem c4_failures_monotone (p : Pool) (os : List ScrapeOutcome) :
    p.scrapeFailures ≤ (runScrapes p os).scrapeFailures
    ∧ ∀ o : ScrapeOutcome,
        ((poolUpdate p o).err.isSome = true →
          (poolUpdate p o).pool.scrapeFailures = p.scrapeFailures + 1)
        ∧ ((poolUpdate p o).err = none →
          (poolUpdate p o).pool.scrapeFailures = p.scrapeFailures) := by
  constructor
  · induction os generalizing p with
    | nil => exact le_refl _
    | cons o rest ih =>
      have hstep : p.scrapeFailures ≤ (poolUpdate p o).pool.scrapeFailures := by
        rcases poolUpdate_step p o with ⟨_, h, _⟩ | ⟨_, h, _⟩ <;> omega
      calc p.scrapeFailures ≤ (poolUpdate p o).pool.scrapeFailures := hstep
        _ ≤ (runScrapes (poolUpdate p o).pool rest).scrapeFailures := ih _
        _ = (runScrapes p (o :: rest)).scrapeFailures := rfl
  · intro o
    constructor
    · intro h
      rcases poolUpdate_step p o with ⟨_, h2, _⟩ | ⟨h1, _⟩
      · exact h2
      · rw [h1] at h; exact absurd h (by simp)
    · intro h
      rcases poolUpdate_step p o with ⟨h1, _⟩ | ⟨_, h2, _⟩
      · rw [h] at h1; exact absurd h1 (by simp)
      · exact h2

theorem c4_failures_monotone_witness :
    (poolUpdate { zeroPool with address := "tcp://127.0.0.1:9000" }
        ⟨some "connection refused", none, Except.ok none⟩).pool.scrapeFailures
      = ({ zeroPool with address := "tcp://127.0.0.1:9000" } : Pool).scrapeFailures + 1 :=
  ((c4_failures_monotone { zeroPool with address := "tcp://127.0.0.1:9000" } []).2
      ⟨some "connection refused", none, Except.ok none⟩).1 (by decide)

/-- C5: a successful scrape leaves the last-error field cleared and the
cumulative failure counter exactly as it was before the attempt. -/
theorem c5_success_state (p : Pool) (o : ScrapeOutcome)
    (h : (poolUpdate p o).err = none) :
    (poolUpdate p o).pool.scrapeError = none
    ∧ (poolUpdate p o).pool.scrapeFailures = p.scrapeFailures := by
  rcases poolUpdate_step p o with ⟨h1, _⟩ | ⟨_, h2, h3, _⟩
  · rw [h] at h1; exact absurd h1 (by simp)
  · exact ⟨h3, h2⟩

theorem c5_success_state_witness :
    (poolUpdate { zeroPool with address := "tcp://127.0.0.1:9000", scrapeFailures := 5 }
        ⟨none, none, Except.ok (some (Json.obj []))⟩).pool.scrapeError = none
    ∧ (poolUpdate { zeroPool with address := "tcp://127.0.0.1:9000", scrapeFailures := 5 }
        ⟨none, none, Except.ok (some (Json.obj []))⟩).pool.scrapeFailures
      = ({ zeroPool with address := "tcp://127.0.0.1:9000", scrapeFailures := 5 } : Pool).scrapeFailures :=
  c5_success_state { zeroPool with address := "tcp://127.0.0.1:9000", scrapeFailures := 5 }
    ⟨none, none, Except.ok (some (Json.obj []))⟩ (by decide)

theorem updateBody_shape (p : Pool) (o : ScrapeOutcome) (da : DialArgs) :
    (updateBody p o da).dialArgs = some da
    ∧ ∀ m, (updateBody p o da).err ≠ some (.address m) := by
  rw [updateBody]
  cases hbody : o.body with
  | error m => exact ⟨rfl, fun m h => by simp at h⟩
  | ok jopt =>
    cases jopt with
    | none => exact ⟨rfl, fun m h => by simp at h⟩
    | some j =>
      dsimp only
      cases hu : unmarshalPool p j with
      | mk p1 e =>
        cases e with
        | none => exact ⟨rfl, fun m h => by simp at h⟩
        | some msg => exact ⟨rfl, fun m h => by simp at h⟩

theorem updateConn_shape (p : Pool) (o : ScrapeOutcome) (da : DialArgs) :
    (updateConn p o da).dialArgs = some da
    ∧ ∀ m, (updateConn p o da).err ≠ some (.address m) := by
  rw [updateConn]
  cases hdial : o.dialErr with
  | some m => exact ⟨rfl, fun m h => by simp at h⟩
  | none =>
    cases hreq : o.requestErr with
    | some m => exact ⟨rfl, fun m h => by simp at h⟩
    | none => exact updateBody_shape p o da

/-- C6 (amended): the scrape fails with an address error before any
connection is attempted exactly when url.Parse rejects the address: a
parse error is recorded as the failure with the dial arguments never
formed, while for every address the parser accepts, whatever its scheme
(including schemes other than tcp and unix, which are never validated),
no address error is reported and the scrape proceeds to the connection
step with that scheme as the network. -/
theorem c6_address_parse (p : Pool) (o : ScrapeOutcome) :
    (∀ m, urlParse p.address = .error m →
      (poolUpdate p o).err = some (.address m)
      ∧ (poolUpdate p o).dialArgs = none)
    ∧ ∀ uri, urlParse p.address = .ok uri →
        (poolUpdate p o).dialArgs
          = some ⟨uri.scheme, uriHostname uri ++ ":" ++ uriPort uri, 3⟩
        ∧ ∀ m, (poolUpdate p o).err ≠ some (.address m) := by
  constructor
  · intro m h
    rw [poolUpdate, h]
    exact ⟨rfl, rfl⟩
  · intro uri h
    rw [poolUpdate, h]
    exact updateConn_shape { p with scrapeError := none } o
      ⟨uri.scheme, uriHostname uri ++ ":" ++ uriPort uri, 3⟩

theorem c6_address_parse_witness :
    ((poolUpdate { zeroPool with address := "tcp://127.0.0.1:x" }
        ⟨none, none, Except.ok none⟩).err
      = some (.address "invalid port :x after host")
    ∧ (poolUpdate { zeroPool with address := "tcp://127.0.0.1:x" }
        ⟨none, none, Except.ok none⟩).dialArgs = none)
    ∧ (poolUpdate { zeroPool with address := "foo://127.0.0.1:9000" }
        ⟨some "connection refused", none, Except.ok none⟩).dialArgs
      = some ⟨"foo", "127.0.0.1:9000", 3⟩ :=
  ⟨(c6_address_parse { zeroPool with address := "tcp://127.0.0.1:x" }
      ⟨none, none, Except.ok none⟩).1 "invalid port :x after host" rfl,
   ((c6_address_parse { zeroPool with address := "foo://127.0.0.1:9000" }
      ⟨some "connection refused", none, Except.ok none⟩).2
      ⟨"foo", "127.0.0.1:9000", ""⟩ rfl).1⟩

/-- C6 counterexample: the unsupported scheme foo is not rejected at
address parsing: the scrape proceeds to the connection step, whose
arguments carry network foo, and the failure reported is the dial error,
not an address error. -/
theorem c6_scheme_not_validated :
    (poolUpdate { zeroPool with address := "foo://127.0.0.1:9000" }
        ⟨some "connection refused", none, Except.ok none⟩).err
      = some (.dial "connection refused")
    ∧ (poolUpdate { zeroPool with address := "foo://127.0.0.1:9000" }
        ⟨some "connection refused", none, Except.ok none⟩).dialArgs
      = some ⟨"foo", "127.0.0.1:9000", 3⟩ :=
  ⟨by decide, by decide⟩

/-- C7: for the documented socket address unix:///tmp/php-fpm.sock the
parser exposes the socket path as the URL path, but line 138 passes
uri.Hostname() plus colon plus uri.Port() as the endpoint, which is the
two-character string colon, not the socket path: the connection step never
receives the filesystem path. -/
theorem c7_unix_endpoint_broken :
    urlParse "unix:///tmp/php-fpm.sock"
      = .ok ⟨"unix", "", "/tmp/php-fpm.sock"⟩
    ∧ (poolUpdate { zeroPool with address := "unix:///tmp/php-fpm.sock" }
        ⟨some "dial unix: missing address", none, Except.ok none⟩).dialArgs
      = some ⟨"unix", ":", 3⟩ :=
  ⟨rfl, by decide⟩

/-- C8: PoolManager.Update returns nil for every pool collection and every
outcome of the individual scrapes; each pool entry afterwards is exactly
the result of its own scrape, so per-pool failures stay on the pool. -/
theorem c8_manager_no_error (pm : PoolManager) (os : List ScrapeOutcome) :
    (poolManagerUpdate pm os).2 = none
    ∧ ∀ (i : Nat) (p : Pool) (o : ScrapeOutcome), pm.pools[i]? = some p → os[i]? = some o →
        (poolManagerUpdate pm os).1.pools[i]? = some (poolUpdate p o).pool := by
  refine ⟨rfl, ?_⟩
  intro i p o hp ho
  show (List.zipWith (fun p o => (poolUpdate p o).pool) pm.pools os)[i]? = _
  rw [List.getElem?_zipWith, hp, ho]

theorem c8_manager_no_error_witness :
    (poolManagerUpdate ⟨[{ zeroPool with address := "tcp://127.0.0.1:9000" }]⟩
        [⟨some "connection refused", none, Except.ok none⟩]).1.pools[0]?
      = some (poolUpdate { zeroPool with address := "tcp://127.0.0.1:9000" }
          ⟨some "connection refused", none, Except.ok none⟩).pool :=
  (c8_manager_no_error ⟨[{ zeroPool with address := "tcp://127.0.0.1:9000" }]⟩
      [⟨some "connection refused", none, Except.ok none⟩]).2 0
    { zeroPool with address := "tcp://127.0.0.1:9000" }
    ⟨some "connection refused", none, Except.ok none⟩ (by decide) rfl

/-- The scenario payload of C9, as the JSON scanner hands it to the
decoder. -/
def scenarioPayload : Json :=
  .obj [("pool", .str "www"), ("start time", .num 1000000000),
    ("processes", .arr [
      .obj [("pid", .num 1), ("state", .str "Idle")],
      .obj [("pid", .num 2), ("state", .str "Running")],
      .obj [("pid", .num 3), ("state", .str "Zombie")]])]

/-- C9: the scenario payload decodes without error to a pool named www
with three processes, the scoreboard over it returns active one, idle one,
total two, and exactly one unknown-state diagnostic is emitted, caused by
the process with pid 3 whose state is Zombie. -/
theorem c9_scenario :
    (unmarshalPool zeroPool scenarioPayload).2 = none
    ∧ (unmarshalPool zeroPool scenarioPayload).1.name = "www"
    ∧ (unmarshalPool zeroPool scenarioPayload).1.processes.length = 3
    ∧ calculateProcessScoreboard (unmarshalPool zeroPool scenarioPayload).1
        = ((1, 1, 2), ["Unknown process state Zombie"])
    ∧ ((unmarshalPool zeroPool scenarioPayload).1.processes[2]?).map
        (fun pr => (pr.pid, pr.state)) = some (3, "Zombie") :=
  ⟨by decide, by decide, by decide, by decide, by decide⟩

/-- C10: Add appends exactly one entry at the end of the collection,
leaving every prior entry in place; the new entry has the given address
and every other field at its zero value; the returned Pool is that value,
and a later manager update replaces the stored entry by its own scrape
result without touching the value Add returned. -/
theorem c10_add_appends_copy (pm : PoolManager) (uri : String)
    (os1 : List ScrapeOutcome) (o : ScrapeOutcome)
    (h : os1.length = pm.pools.length) :
    (poolManagerAdd pm uri).1.pools = pm.pools ++ [{ zeroPool with address := uri }]
    ∧ (poolManagerAdd pm uri).2 = { zeroPool with address := uri }
    ∧ (poolManagerUpdate (poolManagerAdd pm uri).1 (os1 ++ [o])).1.pools
        = (poolManagerUpdate pm os1).1.pools
          ++ [(poolUpdate { zeroPool with address := uri } o).pool] := by
  refine ⟨rfl, rfl, ?_⟩
  show List.zipWith (fun p o => (poolUpdate p o).pool)
      (pm.pools ++ [{ zeroPool with address := uri }]) (os1 ++ [o]) = _
  rw [List.zipWith_append _ _ _ _ _ h.symm]
  rfl

theorem c10_add_appends_copy_witness :
    (poolManagerAdd ⟨[]⟩ "tcp://127.0.0.1:9000").1.pools
      = [{ zeroPool with address := "tcp://127.0.0.1:9000" }]
    ∧ (poolManagerAdd ⟨[]⟩ "tcp://127.0.0.1:9000").2
      = { zeroPool with address := "tcp://127.0.0.1:9000" }
    ∧ (poolManagerUpdate (poolManagerAdd ⟨[]⟩ "tcp://127.0.0.1:9000").1
        [⟨some "connection refused", none, Except.ok none⟩]).1.pools
      = [(poolUpdate { zeroPool with address := "tcp://127.0.0.1:9000" }
          ⟨some "connection refused", none, Except.ok none⟩).pool] := by
  have h := c10_add_appends_copy ⟨[]⟩ "tcp://127.0.0.1:9000" []
    ⟨some "connection refused", none, Except.ok none⟩ rfl
  exact ⟨h.1, h.2.1, h.2.2⟩

end PhpFpmExporter
